import Mathlib

/-!
Verification of the station-collation / measurement-reconciliation core of
the idp_software repository against its natural-language specification.

The C++ sources are shallowly embedded:
  * `double` values are modelled as `ℚ` (the code only compares, adds,
    averages and sorts them on the paths under verification);
  * the missing-value sentinel `ODV::missDOUBLE = -1.e10` becomes the
    rational constant `missDOUBLE`;
  * Qt containers (`QList`, `QStringList`, `QMap` used as a lookup table)
    become `List` values and lookup functions;
  * stateful classes become explicit state records with functional updates.

Every definition carries a comment pointing to the source file and function
it embeds.
-/

set_option maxHeartbeats 1000000

/-- Embeds the sentinel `ODV::missDOUBLE = -1.e10` (src/common/constants.cpp:54). -/
def missDOUBLE : ℚ := -(10 ^ 10 : ℚ)

/-! ## Quality-flag combination (src/common/globalFunctions.cpp:243-263,
    tables from src/common/globalVars.h:62-67) -/

/-- Embeds the table `sdnQFlags` (src/common/globalVars.h:62-63). -/
def sdnQFlags : List Char :=
  ['0', '1', '2', '3', '4', '5', '6', '7', '8', '9', 'A', 'B', 'Q']

/-- Embeds the table `mappedOdvQFlags` (src/common/globalVars.h:64-65). -/
def mappedOdvQFlags : List Char :=
  ['1', '0', '0', '4', '8', '0', '0', '1', '1', '1', '1', '1', '0']

/-- Embeds the table `odvQFlags` (src/common/globalVars.h:66). -/
def odvQFlags : List Char := ['0', '1', '4', '8']

/-- Embeds the table `mappedSdnQFlags` (src/common/globalVars.h:67). -/
def mappedSdnQFlags : List Char := ['1', '0', '3', '4']

/-- Embeds `QList::indexOf` used on the flag tables: the 0-based index of the
first occurrence of `c`, or none when absent (the C++ returns -1 there and the
subsequent `QList::at(-1)` would be undefined behaviour; all verified inputs
stay inside the vocabulary, where the lookup always succeeds). -/
def flagIndexOf (l : List Char) (c : Char) : Option Nat :=
  l.findIdx? (· = c)

/-- Embeds `combinedSdnQualityFlag` (src/common/globalFunctions.cpp:243-263).
The C++ loop carries the counter `m` of non-'9' flags and the running
character maximum `odvQf` (initialised to '0'); `qMax` on `char` is the
ASCII-order maximum, which `max` on `Char` reproduces. Out-of-vocabulary
characters would be undefined behaviour in the C++ (`at(-1)`); the embedding
maps the failed lookup to index 0, and every theorem below restricts inputs
to the vocabulary. -/
def combinedSdnQualityFlag (sdnFlags : List Char) : Char :=
  let r := sdnFlags.foldl
    (fun (acc : Nat × Char) (sdnQf : Char) =>
      if sdnQf = '9' then acc
      else
        let idx := (flagIndexOf sdnQFlags sdnQf).getD 0
        (acc.1 + 1, max acc.2 (mappedOdvQFlags.getD idx '0')))
    (0, '0')
  if r.1 = 0 then '9'
  else mappedSdnQFlags.getD ((flagIndexOf odvQFlags r.2).getD 0) '9'

/-- Modelled from the spec: the code→severity table exactly as the claim C2
words it (`'0'→'1'`, `'1'→'0'`, `'2'→'0'`, `'3'→'4'`, `'4'→'8'`, `'5'→'1'`,
`'6'→'1'`, `'7'→'1'`, `'8'→'1'`, `'A'→'1'`, `'B'→'1'`, `'Q'→'0'`). The
catch-all branch is irrelevant: the claim restricts inputs to the
vocabulary. -/
def claimSeverityC2 : Char → Char
  | '0' => '1'
  | '1' => '0'
  | '2' => '0'
  | '3' => '4'
  | '4' => '8'
  | '5' => '1'
  | '6' => '1'
  | '7' => '1'
  | '8' => '1'
  | 'A' => '1'
  | 'B' => '1'
  | 'Q' => '0'
  | _   => '0'

/-- The severity table the code actually uses (`mappedOdvQFlags` read at the
`sdnQFlags` position of the input code): it differs from the claim's table at
`'5'` and `'6'`, which map to `'0'`, not `'1'`. -/
def codeSeverity : Char → Char
  | '0' => '1'
  | '1' => '0'
  | '2' => '0'
  | '3' => '4'
  | '4' => '8'
  | '5' => '0'
  | '6' => '0'
  | '7' => '1'
  | '8' => '1'
  | 'A' => '1'
  | 'B' => '1'
  | 'Q' => '0'
  | _   => '0'

/-- Modelled from the spec: the severity→representative back-mapping of claim
C2 (`'0'→'1'`, `'1'→'0'`, `'4'→'3'`, `'8'→'4'`). -/
def claimBackMapC2 : Char → Char
  | '0' => '1'
  | '1' => '0'
  | '4' => '3'
  | '8' => '4'
  | _   => '9'

/-- Modelled from the spec: the whole combining algorithm exactly as claim C2
words it, parameterised by the severity table so that the claimed table and
the code's table can be compared: ignore `'9'` inputs, return `'9'` if none
remain, otherwise map through the table, take the maximum severity in the
ASCII order (on `{'0','1','4','8'}` this is the order `'0'<'1'<'4'<'8'` the
claim names), and map the maximum back. -/
def specCombinedFlag (sev : Char → Char) (l : List Char) : Char :=
  let rest := l.filter (· ≠ '9')
  if rest = [] then '9'
  else claimBackMapC2 ((rest.map sev).foldl max '0')

/-! ### C2 helper lemmas -/

/-- The loop counter of `combinedSdnQualityFlag` counts the non-'9' inputs,
and the running maximum is the fold of `codeSeverity` over them. -/
theorem combinedFlag_fold_spec (l : List Char) (hl : ∀ c ∈ l, c ∈ sdnQFlags) :
    ∀ m : Nat, ∀ a : Char,
      l.foldl
        (fun (acc : Nat × Char) (sdnQf : Char) =>
          if sdnQf = '9' then acc
          else
            let idx := (flagIndexOf sdnQFlags sdnQf).getD 0
            (acc.1 + 1, max acc.2 (mappedOdvQFlags.getD idx '0')))
        (m, a) =
      (m + (l.filter (· ≠ '9')).length,
        ((l.filter (· ≠ '9')).map codeSeverity).foldl max a) := by
  induction l with
  | nil => intro m a; simp
  | cons c t ih =>
    intro m a
    have hc : c ∈ sdnQFlags := hl c (List.mem_cons_self c t)
    have ht : ∀ x ∈ t, x ∈ sdnQFlags := fun x hx => hl x (List.mem_cons_of_mem c hx)
    by_cases h9 : c = '9'
    · subst h9
      simpa using ih ht m a
    · have hsev : (mappedOdvQFlags.getD ((flagIndexOf sdnQFlags c).getD 0) '0')
          = codeSeverity c := by
        fin_cases hc <;> simp_all <;> rfl
      simp only [List.foldl_cons, if_neg h9]
      rw [ih ht]
      have hfil : (c :: t).filter (· ≠ '9') = c :: t.filter (· ≠ '9') := by
        simp [List.filter_cons, h9]
      rw [hfil]
      simp only [List.length_cons, List.map_cons, List.foldl_cons]
      rw [Prod.mk.injEq]
      refine ⟨by omega, ?_⟩
      rw [hsev]

/-- The running maximum stays inside `{'0','1','4','8'}` when it starts there
and all inputs are vocabulary codes. -/
theorem codeSeverity_mem (c : Char) (hc : c ∈ sdnQFlags) :
    codeSeverity c ∈ odvQFlags := by
  fin_cases hc <;> decide

theorem foldl_max_mem_odv (l : List Char) (a : Char) (ha : a ∈ odvQFlags)
    (hl : ∀ c ∈ l, c ∈ odvQFlags) : l.foldl max a ∈ odvQFlags := by
  induction l generalizing a with
  | nil => simpa using ha
  | cons c t ih =>
    have hc : c ∈ odvQFlags := hl c (List.mem_cons_self c t)
    have ht : ∀ x ∈ t, x ∈ odvQFlags := fun x hx => hl x (List.mem_cons_of_mem c hx)
    have : max a c ∈ odvQFlags := by
      fin_cases ha <;> fin_cases hc <;> decide
    simpa using ih (max a c) this ht

/-- On `{'0','1','4','8'}` the code's final table lookup agrees with the
claim's back-mapping. -/
theorem backmap_agree (a : Char) (ha : a ∈ odvQFlags) :
    mappedSdnQFlags.getD ((flagIndexOf odvQFlags a).getD 0) '9' = claimBackMapC2 a := by
  fin_cases ha <;> decide

/-- Auxiliary: the code's and the (amended) spec's combining algorithms
coincide on vocabulary inputs. -/
theorem combinedFlag_eq_spec (l : List Char) (hl : ∀ c ∈ l, c ∈ sdnQFlags) :
    combinedSdnQualityFlag l = specCombinedFlag codeSeverity l := by
  unfold combinedSdnQualityFlag specCombinedFlag
  rw [combinedFlag_fold_spec l hl 0 '0']
  simp only [Nat.zero_add]
  by_cases hfe : l.filter (· ≠ '9') = []
  · rw [hfe]
    simp
  · have hlen : ¬((l.filter (· ≠ '9')).length = 0) := fun h =>
      hfe (List.length_eq_zero.mp h)
    have hmem : ((l.filter (· ≠ '9')).map codeSeverity).foldl max '0' ∈ odvQFlags := by
      refine foldl_max_mem_odv _ '0' (by decide) ?_
      intro c hc
      rcases List.mem_map.mp hc with ⟨x, hx, rfl⟩
      exact codeSeverity_mem x (hl x (List.mem_of_mem_filter hx))
    rw [if_neg hlen, if_neg hfe]
    exact backmap_agree _ hmem

/-- Claim C2 (counterexample): on input `['5']` the code maps `'5'` through
`mappedOdvQFlags` to severity `'0'` and returns `'1'`, while the claim's
table (`'5'→'1'`, back `'1'→'0'`) predicts `'0'`; the claimed table is wrong
at `'5'` (and at `'6'`). -/
theorem c2_counterexample :
    combinedSdnQualityFlag ['5'] ≠ specCombinedFlag claimSeverityC2 ['5'] := by
  decide

/-- Claim C2 (amended): for every input list of quality codes drawn from the
vocabulary, `combinedSdnQualityFlag` ignores all `'9'` inputs and returns
`'9'` if none remain; otherwise it maps each remaining code through the
severity table `'0'→'1'`, `'1'→'0'`, `'2'→'0'`, `'3'→'4'`, `'4'→'8'`,
`'5'→'0'`, `'6'→'0'`, `'7'→'1'`, `'8'→'1'`, `'A'→'1'`, `'B'→'1'`, `'Q'→'0'`,
takes the maximum mapped severity under the order `'0'<'1'<'4'<'8'`, and
returns the maximum mapped back through `'0'→'1'`, `'1'→'0'`, `'4'→'3'`,
`'8'→'4'`. (The claim's table said `'5'→'1'` and `'6'→'1'`; the code maps
both to `'0'`.) -/
theorem c2_combinedFlag_correct (l : List Char) (hl : ∀ c ∈ l, c ∈ sdnQFlags) :
    combinedSdnQualityFlag l = specCombinedFlag codeSeverity l :=
  combinedFlag_eq_spec l hl

/-- Witness for `c2_combinedFlag_correct` at the concrete vocabulary input
`['2', '3', '9', 'B']`. -/
theorem c2_combinedFlag_correct_witness :
    combinedSdnQualityFlag ['2', '3', '9', 'B'] =
      specCombinedFlag codeSeverity ['2', '3', '9', 'B'] :=
  c2_combinedFlag_correct ['2', '3', '9', 'B'] (by decide)

/-- Claim C6 (counterexample): `combinedSdnQualityFlag ['9','0']` returns
`'0'` (ignore `'9'`, map `'0'` to severity `'1'`, map back `'1'→'0'`), not
`'1'` as the claim states. -/
theorem c6_counterexample : combinedSdnQualityFlag ['9', '0'] ≠ '1' := by
  decide

/-- Claim C6 (amended): `combinedSdnQualityFlag ['0','4']` returns `'4'`;
`['9','9']` returns `'9'`; `['9','0']` returns `'0'` (not `'1'`: the sole
surviving code `'0'` has severity `'1'`, which maps back to `'0'`). -/
theorem c6_flag_examples :
    combinedSdnQualityFlag ['0', '4'] = '4' ∧
    combinedSdnQualityFlag ['9', '9'] = '9' ∧
    combinedSdnQualityFlag ['9', '0'] = '0' := by
  decide

/-! ## Robust statistics (src/common/RRandomVar.cpp) -/

/-- Embeds `RRandomVar::median` (src/common/RRandomVar.cpp:92-130) for a
freshly constructed `RRandomVar` (in the reconciliation code a new object is
built for every call, so the `med`/`nonMissCount` caching shortcut at entry
never fires). The loop collects the values different from `missVal`; the
Numerical-Recipes index sort `indexx` (src/common/globalFunctions.cpp:700-748,
whose documented contract is that `arrin[indx[j]]` is ascending in `j`) is
modelled by `List.insertionSort (· ≤ ·)`; then `nc = (n-1)/2` and the result
is `dWrk[iWrk[nc]]` for odd `n` and `0.5*(dWrk[iWrk[nc]]+dWrk[iWrk[nc+1]])`
for even `n`, or `missVal` when no valid value exists. -/
def RRandomVar.median (vals : List ℚ) (missVal : ℚ) : ℚ :=
  let d := vals.filter (· ≠ missVal)
  let n := d.length
  if n = 0 then missVal
  else
    let s := d.insertionSort (· ≤ ·)
    let nc := (n - 1) / 2
    if n % 2 = 1 then s.getD nc 0 else (s.getD nc 0 + s.getD (nc + 1) 0) / 2

/-- Embeds `RRandomVar::mean` (src/common/RRandomVar.cpp:51-89): the mean of
the values different from `missDOUBLE`, or `missDOUBLE` when there are
none. -/
def RRandomVar.mean (vals : List ℚ) : ℚ :=
  let nm := vals.filter (· ≠ missDOUBLE)
  if nm.length = 0 then missDOUBLE else nm.sum / nm.length

/-- Embeds `meanOf` (src/common/globalFunctions.cpp:798-818): the average of
the two values, ignoring `missDOUBLE` entries, `missDOUBLE` if both are
missing. -/
def meanOf (d1 d2 : ℚ) : ℚ :=
  if d1 ≠ missDOUBLE ∧ d2 ≠ missDOUBLE then (d1 + d2) / 2
  else if d1 ≠ missDOUBLE ∧ d2 = missDOUBLE then d1
  else if d1 = missDOUBLE ∧ d2 ≠ missDOUBLE then d2
  else missDOUBLE

/-- Claim C7: `RRandomVar::median()` returns the middle element of the sorted
non-missing values for odd count, the average of the two middle elements for
even count, and the sentinel for zero non-missing values; in particular the
median over `[missing, 2, 4, 6]` is 4 and over `[2, 4]` is 3. The sorted
arrangement is characterised abstractly: any sorted permutation `s` of the
non-missing values gives the stated result. -/
theorem c7_median_correct (vals : List ℚ) (missVal : ℚ) (s : List ℚ)
    (hp : (vals.filter (· ≠ missVal)).Perm s) (hs : s.Sorted (· ≤ ·)) :
    (RRandomVar.median vals missVal =
      if s.length = 0 then missVal
      else if s.length % 2 = 1 then s.getD ((s.length - 1) / 2) 0
      else (s.getD ((s.length - 1) / 2) 0 + s.getD ((s.length - 1) / 2 + 1) 0) / 2) ∧
    RRandomVar.median [missDOUBLE, 2, 4, 6] missDOUBLE = 4 ∧
    RRandomVar.median [2, 4] missDOUBLE = 3 := by
  refine ⟨?_, by norm_num [RRandomVar.median, missDOUBLE], by norm_num [RRandomVar.median, missDOUBLE]⟩
  have hsort : ((vals.filter (· ≠ missVal)).insertionSort (· ≤ ·)).Sorted (· ≤ ·) :=
    List.sorted_insertionSort (· ≤ ·) _
  have hperm : ((vals.filter (· ≠ missVal)).insertionSort (· ≤ ·)).Perm s :=
    (List.perm_insertionSort (· ≤ ·) _).trans hp
  have hseq : (vals.filter (· ≠ missVal)).insertionSort (· ≤ ·) = s :=
    List.eq_of_perm_of_sorted hperm hsort hs
  have hlen : (vals.filter (· ≠ missVal)).length = s.length := by
    rw [← hseq, List.length_insertionSort]
  simp only [RRandomVar.median]
  rw [hseq, hlen]

/-- Witness for `c7_median_correct` at `vals = [missDOUBLE, 2, 4, 6]`,
`s = [2, 4, 6]`. -/
theorem c7_median_correct_witness :
    RRandomVar.median [missDOUBLE, 2, 4, 6] missDOUBLE =
      if ([2, 4, 6] : List ℚ).length = 0 then missDOUBLE
      else if ([2, 4, 6] : List ℚ).length % 2 = 1 then
        ([2, 4, 6] : List ℚ).getD ((([2, 4, 6] : List ℚ).length - 1) / 2) 0
      else (([2, 4, 6] : List ℚ).getD ((([2, 4, 6] : List ℚ).length - 1) / 2) 0 +
        ([2, 4, 6] : List ℚ).getD ((([2, 4, 6] : List ℚ).length - 1) / 2 + 1) 0) / 2 :=
  (c7_median_correct [missDOUBLE, 2, 4, 6] missDOUBLE [2, 4, 6]
    (by norm_num [missDOUBLE]) (by norm_num)).1

/-! ## Memory arena (src/common/RMemArea.h, src/common/RMemArea.cpp) -/

/-- State of an `RMemArea` (src/common/RMemArea.h:23-84). The C++ keeps block
infos twice (a dense array for ids `0..blockInfoArrSize-1` plus a `QMap` for
all other ids); the default constructor used in the claims creates the object
with `blockInfoArrSize = 0`, so every id goes through the map, and both paths
realise one partial mapping id → (byte offset, byte size), modelled by
`blocks`. `allocated` models `d != NULL`. -/
structure RMemArea where
  totalBytes : Int
  usedBytes : Int
  lastID : Int
  blocks : Int → Option (Int × Int)
  allocated : Bool

/-- Embeds the default constructor `RMemArea::RMemArea()` plus `clear()`
(src/common/RMemArea.cpp:54-63, 110-118): no buffer, no blocks,
`lastID = ODV::missINT32 = -2147483646`. -/
def RMemArea.empty : RMemArea :=
  { totalBytes := 0, usedBytes := 0, lastID := -2147483646,
    blocks := fun _ => none, allocated := false }

/-- Embeds `RMemArea::blockInfoValue` (src/common/RMemArea.h:27-31): the
stored 8-byte block info `MAKEINT64(byteOffset, nBytes) = nBytes << 32 |
byteOffset` (src/common/macros.h:41), `-1` for an unregistered id. The
arithmetic form `o + s * 2^32` equals the bit combination for the
non-negative offsets and sizes the arena stores. -/
def RMemArea.blockInfoValue (a : RMemArea) (id : Int) : Int :=
  match a.blocks id with
  | some (o, s) => o + s * 2 ^ 32
  | none => -1

/-- Embeds `RMemArea::byteOffset` (src/common/RMemArea.h:39-40):
`LOWINT(v) = v & 0xffffffff` for a registered id, `-1` otherwise. -/
def RMemArea.byteOffset (a : RMemArea) (id : Int) : Int :=
  let v := a.blockInfoValue id
  if v > -1 then v % 2 ^ 32 else -1

/-- Embeds `RMemArea::byteSize` (src/common/RMemArea.h:42-43):
`HIGHINT(v) = v >> 32` for a registered id, `-1` otherwise. -/
def RMemArea.byteSize (a : RMemArea) (id : Int) : Int :=
  let v := a.blockInfoValue id
  if v > -1 then v / 2 ^ 32 else -1

/-- Embeds `RMemArea::data(int)` (src/common/RMemArea.h:48-52): for a
registered id the non-null pointer `d + LOWINT(v)` (modelled by its byte
offset into the buffer), otherwise the null pointer (modelled by `none`). -/
def RMemArea.data (a : RMemArea) (id : Int) : Option Int :=
  let v := a.blockInfoValue id
  if v > -1 then some (v % 2 ^ 32) else none

/-- Embeds `RMemArea::request(int,int)` (src/common/RMemArea.cpp:195-227).
`newSize = usedBytes + nBytes`; the growth factor is 3 when the single
request exceeds the whole current capacity, else 5; the new capacity is
`max(usedBytes + incFac*nBytes, (int)(1.25*totalBytes))` (for the
non-negative capacities that occur, the `(int)` truncation of `1.25*t` is
`5*t/4` in integer division). The claims assume every growth allocation
succeeds, so the embedding gives `realloc` success semantics: after a growth
step the buffer exists (`allocated := true`). The returned `Bool` models
whether the C++ returns a non-null pointer. -/
def RMemArea.request (a : RMemArea) (id : Int) (nBytes : Int) : RMemArea × Bool :=
  let newSize := a.usedBytes + nBytes
  let incFac : Int := if nBytes > a.totalBytes then 3 else 5
  let N := max (a.usedBytes + incFac * nBytes) (5 * a.totalBytes / 4)
  let a1 := if newSize > a.totalBytes then
    { a with totalBytes := N, allocated := true } else a
  if a1.allocated then
    ({ a1 with
        blocks := fun j => if j = id then some (a1.usedBytes, nBytes) else a1.blocks j,
        usedBytes := a1.usedBytes + nBytes,
        lastID := id }, true)
  else (a1, false)

/-- Loop body of `RMemArea::requestMulti` (src/common/RMemArea.cpp:230-241):
`for (id=firstID; id<=lastID; ++id) request(id,nBytes);`, with the remaining
iteration count as fuel. -/
def RMemArea.requestMultiAux : Nat → RMemArea → Int → Int → RMemArea
  | 0, a, _, _ => a
  | k + 1, a, id, nBytes => RMemArea.requestMultiAux k (a.request id nBytes).1 (id + 1) nBytes

/-- Embeds `RMemArea::requestMulti` (src/common/RMemArea.cpp:230-241). -/
def RMemArea.requestMulti (a : RMemArea) (firstID lastID nBytes : Int) : RMemArea :=
  RMemArea.requestMultiAux (lastID + 1 - firstID).toNat a firstID nBytes

/-- The 8 ids of the claim-C8 range `[-2, 5]`. -/
def c8Ids : List Int := [-2, -1, 0, 1, 2, 3, 4, 5]

/-- Claim C8: starting from an empty arena (growth allocations assumed to
succeed, which the embedding of `request` builds in), `requestMulti(-2, 5,
80)` registers one block for each of the 8 ids in `[-2, 5]`, each of size
exactly 80 bytes, with pairwise disjoint `[offset, offset+80)` byte ranges,
and `data(id)` afterwards returns a non-null pointer for every id in the
range. -/
theorem c8_requestMulti_blocks :
    (∀ id ∈ c8Ids, (RMemArea.empty.requestMulti (-2) 5 80).byteSize id = 80) ∧
    (∀ id ∈ c8Ids, ((RMemArea.empty.requestMulti (-2) 5 80).data id).isSome = true) ∧
    (∀ i ∈ c8Ids, ∀ j ∈ c8Ids, i ≠ j →
      (RMemArea.empty.requestMulti (-2) 5 80).byteOffset i + 80 ≤
        (RMemArea.empty.requestMulti (-2) 5 80).byteOffset j ∨
      (RMemArea.empty.requestMulti (-2) 5 80).byteOffset j + 80 ≤
        (RMemArea.empty.requestMulti (-2) 5 80).byteOffset i) := by
  decide

/-! ## Events and stations (src/common/Events.h, src/common/Stations.h,
    src/common/Stations.cpp) -/

/-- Embeds `EventInfo` (src/common/Events.h:24-51); the `dataType` member is
never read by the collation code and is omitted. -/
structure EventInfo where
  eventNumber : Int
  cruiseLbl : String
  stationLbl : String
  castIdentifier : String
  samplingDevice : String
  startGregorianDay : ℚ
  endGregorianDay : ℚ
  startLongitude : ℚ
  startLatitude : ℚ
  endLongitude : ℚ
  endLatitude : ℚ
  longitude : ℚ
  latitude : ℚ
  bottomDepth : ℚ
deriving DecidableEq

/-- Embeds a default-constructed `EventInfo` (src/common/Events.h:33):
`eventNumber = -1`, empty strings; the `double` members are uninitialised in
the C++ (reading them is undefined behaviour) and are fixed to the missing
sentinel here. -/
def EventInfo.defaultInfo : EventInfo :=
  { eventNumber := -1, cruiseLbl := "", stationLbl := "", castIdentifier := "",
    samplingDevice := "", startGregorianDay := missDOUBLE,
    endGregorianDay := missDOUBLE, startLongitude := missDOUBLE,
    startLatitude := missDOUBLE, endLongitude := missDOUBLE,
    endLatitude := missDOUBLE, longitude := missDOUBLE, latitude := missDOUBLE,
    bottomDepth := missDOUBLE }

/-- An `EventsDB` (src/common/Events.h:56-90) reduced to what the collation
code reads from it: the partial map event-number-string → `EventInfo`
realised by `contains` and `eventInfoOf(value(...))`. -/
def EventsDB : Type := String → Option EventInfo

/-- Embeds `QMap::contains` on an `EventsDB`. -/
def dbContains (db : EventsDB) (k : String) : Bool := (db k).isSome

/-- Embeds `EventsDB::eventInfoOf(const QString&)`
(src/common/Events.cpp:411-420): for an absent key `value()` yields the
empty `InfoItem` and `eventInfoOf(InfoItem)` returns a default-constructed
`EventInfo` (src/common/Events.cpp:374-408). -/
def dbEventInfoOf (db : EventsDB) (k : String) : EventInfo :=
  (db k).getD EventInfo.defaultInfo

/-- Embeds `Station` (src/common/Stations.h:61-89): the inherited
`QStringList` of event numbers plus `cruiseLbl`, `stationLbls` and
`eventInfos`. `addEvent` keeps `evtNumbers` and `eventInfos` in lockstep. -/
structure Station where
  evtNumbers : List String
  cruiseLbl : String
  stationLbls : List String
  eventInfos : List EventInfo
deriving DecidableEq

/-- Embeds the default constructor `Station::Station()`
(src/common/Stations.cpp:190-198). -/
def Station.emptySt : Station :=
  { evtNumbers := [], cruiseLbl := "", stationLbls := [], eventInfos := [] }

/-- Embeds the inherited `QStringList::contains` on the event-number list. -/
def Station.containsEvt (st : Station) (e : String) : Bool :=
  st.evtNumbers.contains e

/-- Embeds the inherited `QStringList::isEmpty`. -/
def Station.isEmptySt (st : Station) : Bool := st.evtNumbers.isEmpty

/-- Embeds `Station::addStationLabel` (src/common/Stations.cpp:266-276):
append `lbl` unless it is empty or already present. -/
def Station.addStationLabel (st : Station) (lbl : String) : Station :=
  if ¬(lbl = "" ∨ st.stationLbls.contains lbl) then
    { st with stationLbls := st.stationLbls ++ [lbl] }
  else st

/-- The `if (isEmpty()) cruiseLbl=ei.cruiseLbl;` step of `Station::addEvent`
(src/common/Stations.cpp:235): remember the cruise label if this is the first
event. -/
def Station.withCruiseOfFirst (st : Station) (ei : EventInfo) : Station :=
  if st.isEmptySt then { st with cruiseLbl := ei.cruiseLbl } else st

/-- The success path of `Station::addEvent` (src/common/Stations.cpp:239-240):
`append(bodcEventNumber); eventInfos.append(ei); addStationLabel(ei.stationLbl)`. -/
def Station.appendEvt (st : Station) (e : String) (ei : EventInfo) : Station :=
  Station.addStationLabel
    { st with evtNumbers := st.evtNumbers ++ [e],
              eventInfos := st.eventInfos ++ [ei] } ei.stationLbl

/-- Embeds `Station::addEvent` (src/common/Stations.cpp:216-245): fail if the
event is already present or unknown to the events DB; remember the cruise
label if this is the first event; append the event number, its `EventInfo`
and its station label when the cruise labels agree, fail otherwise. -/
def Station.addEvent (db : EventsDB) (st : Station) (e : String) : Bool × Station :=
  if st.containsEvt e || !(dbContains db e) then (false, st)
  else
    let ei := dbEventInfoOf db e
    let st1 := st.withCruiseOfFirst ei
    if st1.cruiseLbl = ei.cruiseLbl then (true, st1.appendEvt e ei)
    else (false, st1)

/-- Embeds the constructor `Station::Station(EventsDB*, const QString&)`
(src/common/Stations.cpp:201-214): empty station if the event number does not
exist, otherwise the result of `addEvent` on the empty station. -/
def Station.fromEvent (db : EventsDB) (e : String) : Station :=
  if !(dbContains db e) then Station.emptySt
  else (Station.addEvent db Station.emptySt e).2

/-- Embeds `Station::addStation` (src/common/Stations.cpp:248-263): no-op
when the cruise labels differ, otherwise append all event numbers and event
infos of `other` (the two lists are kept in lockstep by `addEvent`, so the
C++ loop over `0..other.size()-1` appends exactly these). Station labels are
not transferred. -/
def Station.addStation (st other : Station) : Station :=
  if st.cruiseLbl ≠ other.cruiseLbl then st
  else
    { st with evtNumbers := st.evtNumbers ++ other.evtNumbers,
              eventInfos := st.eventInfos ++ other.eventInfos }

/-- Embeds the relabelling step of `StationList::autoAssignStationLabels`
(src/common/Stations.cpp:383-384): `st.stationLbls.clear();
st.stationLbls.append(QString("(%1)").arg(++nextStNumber))`. -/
def Station.setAutoLabel (st : Station) (k : Nat) : Station :=
  { st with stationLbls := ["(" ++ toString k ++ ")"] }

/-- The station states produced or mutated by the collation operations named
in claim C3: empty construction, construction from an event, `addEvent`,
`addStation` (the merge pass), and auto-labelling. -/
inductive ReachableStation : Station → Prop
  | empty : ReachableStation Station.emptySt
  | fromEvent (db : EventsDB) (e : String) : ReachableStation (Station.fromEvent db e)
  | addEvent (db : EventsDB) (e : String) (st : Station) :
      ReachableStation st → ReachableStation (Station.addEvent db st e).2
  | addStation (st other : Station) :
      ReachableStation st → ReachableStation other →
      ReachableStation (st.addStation other)
  | autoLabel (st : Station) (k : Nat) :
      ReachableStation st → ReachableStation (st.setAutoLabel k)

/-- Auxiliary invariant carried through the C3 induction: the event-number
and event-info lists have equal length, and every contained event has the
station's cruise label. -/
def Station.wellFormed (st : Station) : Prop :=
  st.eventInfos.length = st.evtNumbers.length ∧
  ∀ ei ∈ st.eventInfos, ei.cruiseLbl = st.cruiseLbl

theorem addStationLabel_evtNumbers (st : Station) (lbl : String) :
    (st.addStationLabel lbl).evtNumbers = st.evtNumbers := by
  unfold Station.addStationLabel
  split <;> rfl

theorem addStationLabel_eventInfos (st : Station) (lbl : String) :
    (st.addStationLabel lbl).eventInfos = st.eventInfos := by
  unfold Station.addStationLabel
  split <;> rfl

theorem addStationLabel_cruiseLbl (st : Station) (lbl : String) :
    (st.addStationLabel lbl).cruiseLbl = st.cruiseLbl := by
  unfold Station.addStationLabel
  split <;> rfl

theorem appendEvt_evtNumbers (st : Station) (e : String) (ei : EventInfo) :
    (st.appendEvt e ei).evtNumbers = st.evtNumbers ++ [e] := by
  unfold Station.appendEvt
  rw [addStationLabel_evtNumbers]

theorem appendEvt_eventInfos (st : Station) (e : String) (ei : EventInfo) :
    (st.appendEvt e ei).eventInfos = st.eventInfos ++ [ei] := by
  unfold Station.appendEvt
  rw [addStationLabel_eventInfos]

theorem appendEvt_cruiseLbl (st : Station) (e : String) (ei : EventInfo) :
    (st.appendEvt e ei).cruiseLbl = st.cruiseLbl := by
  unfold Station.appendEvt
  rw [addStationLabel_cruiseLbl]

theorem withCruiseOfFirst_evtNumbers (st : Station) (ei : EventInfo) :
    (st.withCruiseOfFirst ei).evtNumbers = st.evtNumbers := by
  unfold Station.withCruiseOfFirst
  split <;> rfl

theorem withCruiseOfFirst_eventInfos (st : Station) (ei : EventInfo) :
    (st.withCruiseOfFirst ei).eventInfos = st.eventInfos := by
  unfold Station.withCruiseOfFirst
  split <;> rfl

theorem withCruiseOfFirst_stationLbls (st : Station) (ei : EventInfo) :
    (st.withCruiseOfFirst ei).stationLbls = st.stationLbls := by
  unfold Station.withCruiseOfFirst
  split <;> rfl

theorem withCruiseOfFirst_wellFormed (st : Station) (ei : EventInfo)
    (h : st.wellFormed) : (st.withCruiseOfFirst ei).wellFormed := by
  obtain ⟨hlen, hcr⟩ := h
  unfold Station.withCruiseOfFirst
  split
  next hemp =>
    have hnil : st.evtNumbers = [] := by
      simpa [Station.isEmptySt, List.isEmpty_iff] using hemp
    have hinfonil : st.eventInfos = [] :=
      List.length_eq_zero.mp (by rw [hlen, hnil]; rfl)
    refine ⟨by simp [hlen], ?_⟩
    intro x hx
    rw [hinfonil] at hx
    exact absurd hx (List.not_mem_nil x)
  next => exact ⟨hlen, hcr⟩

theorem appendEvt_wellFormed (st : Station) (e : String) (ei : EventInfo)
    (h : st.wellFormed) (hcrq : st.cruiseLbl = ei.cruiseLbl) :
    (st.appendEvt e ei).wellFormed := by
  obtain ⟨hlen, hcr⟩ := h
  constructor
  · rw [appendEvt_evtNumbers, appendEvt_eventInfos]
    simp [hlen]
  · intro x hx
    rw [appendEvt_eventInfos] at hx
    rw [appendEvt_cruiseLbl]
    rcases List.mem_append.mp hx with hx | hx
    · exact hcr x hx
    · rw [List.mem_singleton.mp hx, ← hcrq]

theorem addEvent_wellFormed (db : EventsDB) (st : Station) (e : String)
    (h : st.wellFormed) : (Station.addEvent db st e).2.wellFormed := by
  unfold Station.addEvent
  split
  · exact h
  · simp only []
    split
    next hcrq =>
      exact appendEvt_wellFormed _ e _ (withCruiseOfFirst_wellFormed st _ h) hcrq
    next => exact withCruiseOfFirst_wellFormed st _ h

theorem addStation_wellFormed (st other : Station)
    (h : st.wellFormed) (ho : other.wellFormed) :
    (st.addStation other).wellFormed := by
  obtain ⟨hlen, hcr⟩ := h
  obtain ⟨holen, hocr⟩ := ho
  unfold Station.addStation
  by_cases hcrq : st.cruiseLbl ≠ other.cruiseLbl
  · simp only [if_pos hcrq]
    exact ⟨hlen, hcr⟩
  · simp only [if_neg hcrq]
    push_neg at hcrq
    refine ⟨by simp [hlen, holen], ?_⟩
    intro x hx
    rcases List.mem_append.mp hx with hx | hx
    · exact hcr x hx
    · rw [hocr x hx, ← hcrq]

theorem reachable_wellFormed (st : Station) (h : ReachableStation st) :
    st.wellFormed := by
  induction h with
  | empty => exact ⟨rfl, by intro x hx; simp [Station.emptySt] at hx⟩
  | fromEvent db e =>
    unfold Station.fromEvent
    by_cases hc : dbContains db e
    · simp only [hc]
      exact addEvent_wellFormed db Station.emptySt e
        ⟨rfl, by intro x hx; simp [Station.emptySt] at hx⟩
    · simp only [hc]
      exact ⟨rfl, by intro x hx; simp [Station.emptySt] at hx⟩
  | addEvent db e st _ ih => exact addEvent_wellFormed db st e ih
  | addStation st other _ _ ih iho => exact addStation_wellFormed st other ih iho
  | autoLabel st k _ ih =>
    obtain ⟨hlen, hcr⟩ := ih
    exact ⟨hlen, hcr⟩

/-- Claim C3: every Station produced or mutated by the collation operations
(construction from an event, `addEvent`, `addStation` during the merge pass,
auto-labelling) contains only events whose cruise label equals the Station's
`cruiseLbl` field. -/
theorem c3_station_cruise_invariant (st : Station) (h : ReachableStation st) :
    ∀ ei ∈ st.eventInfos, ei.cruiseLbl = st.cruiseLbl :=
  (reachable_wellFormed st h).2

theorem addStationLabel_stationLbls (st : Station) (lbl : String) :
    (st.addStationLabel lbl).stationLbls =
      if ¬(lbl = "" ∨ st.stationLbls.contains lbl) then st.stationLbls ++ [lbl]
      else st.stationLbls := by
  unfold Station.addStationLabel
  split
  next => rfl
  next => rfl

theorem appendEvt_stationLbls (st : Station) (e : String) (ei : EventInfo) :
    (st.appendEvt e ei).stationLbls =
      if ¬(ei.stationLbl = "" ∨ st.stationLbls.contains ei.stationLbl) then
        st.stationLbls ++ [ei.stationLbl]
      else st.stationLbls := by
  unfold Station.appendEvt
  rw [addStationLabel_stationLbls]

/-- Small helper building the `EventInfo` of an event at one position and one
instant (start = end), as used by the concrete witness databases below. -/
def mkEvent (num : Int) (cruise stat : String) (t lon lat : ℚ) : EventInfo :=
  { eventNumber := num, cruiseLbl := cruise, stationLbl := stat,
    castIdentifier := "", samplingDevice := "",
    startGregorianDay := t, endGregorianDay := t,
    startLongitude := lon, startLatitude := lat,
    endLongitude := lon, endLatitude := lat,
    longitude := lon, latitude := lat, bottomDepth := 0 }

/-- Concrete events database used by the C3 witness. -/
def dbW : EventsDB := fun k =>
  if k = "100" then some (mkEvent 100 "GA01" "S1" 0 0 0) else none

/-- Witness for `c3_station_cruise_invariant`: the station built from event
"100" of `dbW` carries that event's cruise label. -/
theorem c3_station_cruise_invariant_witness :
    ((Station.fromEvent dbW "100").eventInfos.getD 0 EventInfo.defaultInfo).cruiseLbl =
      (Station.fromEvent dbW "100").cruiseLbl :=
  c3_station_cruise_invariant _ (ReachableStation.fromEvent dbW "100") _ (by decide)

/-- Claim C10: `Station::addEvent` returns `false` and leaves the Station
entirely unchanged exactly when the event is already contained, is unknown to
the events database, or the Station is non-empty and the event's cruise label
differs from the Station's; in every other case it returns `true` and appends
exactly that one event (and its station label, if new and non-empty), setting
the cruise label when the Station was empty. -/
theorem c10_addEvent_spec (db : EventsDB) (st : Station) (e : String) :
    ((st.containsEvt e = true ∨ dbContains db e = false ∨
        (st.evtNumbers ≠ [] ∧ (dbEventInfoOf db e).cruiseLbl ≠ st.cruiseLbl)) →
      Station.addEvent db st e = (false, st)) ∧
    (¬(st.containsEvt e = true ∨ dbContains db e = false ∨
        (st.evtNumbers ≠ [] ∧ (dbEventInfoOf db e).cruiseLbl ≠ st.cruiseLbl)) →
      (Station.addEvent db st e).1 = true ∧
      (Station.addEvent db st e).2.evtNumbers = st.evtNumbers ++ [e] ∧
      (Station.addEvent db st e).2.eventInfos = st.eventInfos ++ [dbEventInfoOf db e] ∧
      (Station.addEvent db st e).2.stationLbls =
        (if ¬((dbEventInfoOf db e).stationLbl = "" ∨
              st.stationLbls.contains (dbEventInfoOf db e).stationLbl) then
          st.stationLbls ++ [(dbEventInfoOf db e).stationLbl]
        else st.stationLbls) ∧
      (Station.addEvent db st e).2.cruiseLbl =
        (if st.evtNumbers = [] then (dbEventInfoOf db e).cruiseLbl
         else st.cruiseLbl)) := by
  constructor
  · intro h
    unfold Station.addEvent
    by_cases h1 : (st.containsEvt e || !dbContains db e) = true
    · rw [if_pos h1]
    · rw [if_neg h1]
      simp only [Bool.or_eq_true, Bool.not_eq_true', not_or] at h1
      obtain ⟨hc, hdb⟩ := h1
      rcases h with h | h | h
      · exact absurd h (by simp [hc])
      · exact absurd h (by simp [hdb])
      · obtain ⟨hne, hcr⟩ := h
        have hemp : st.isEmptySt = false := by
          simp [Station.isEmptySt, List.isEmpty_iff, hne]
        have hst1 : st.withCruiseOfFirst (dbEventInfoOf db e) = st := by
          unfold Station.withCruiseOfFirst
          rw [hemp]
          rfl
        simp only [hst1]
        rw [if_neg (fun hh => hcr hh.symm)]
  · intro h
    push_neg at h
    obtain ⟨hc, hdb, h3⟩ := h
    have hc' : st.containsEvt e = false := by
      cases hval : st.containsEvt e
      · rfl
      · exact absurd hval hc
    have hdb' : dbContains db e = true := by
      cases hval : dbContains db e
      · exact absurd hval hdb
      · rfl
    have h1 : ¬((st.containsEvt e || !dbContains db e) = true) := by
      simp [hc', hdb']
    unfold Station.addEvent
    rw [if_neg h1]
    by_cases hne : st.evtNumbers = []
    · have hemp : st.isEmptySt = true := by
        simp [Station.isEmptySt, List.isEmpty_iff, hne]
      have hst1 : st.withCruiseOfFirst (dbEventInfoOf db e) =
          { st with cruiseLbl := (dbEventInfoOf db e).cruiseLbl } := by
        unfold Station.withCruiseOfFirst
        rw [hemp]
        rfl
      simp only [hst1]
      rw [if_pos trivial]
      refine ⟨rfl, ?_, ?_, ?_, ?_⟩
      · rw [appendEvt_evtNumbers]
      · rw [appendEvt_eventInfos]
      · rw [appendEvt_stationLbls]
      · rw [appendEvt_cruiseLbl, if_pos hne]
    · have hcr : (dbEventInfoOf db e).cruiseLbl = st.cruiseLbl := h3 hne
      have hemp : st.isEmptySt = false := by
        simp [Station.isEmptySt, List.isEmpty_iff, hne]
      have hst1 : st.withCruiseOfFirst (dbEventInfoOf db e) = st := by
        unfold Station.withCruiseOfFirst
        rw [hemp]
        rfl
      simp only [hst1]
      rw [if_pos hcr.symm]
      refine ⟨rfl, ?_, ?_, ?_, ?_⟩
      · rw [appendEvt_evtNumbers]
      · rw [appendEvt_eventInfos]
      · rw [appendEvt_stationLbls]
      · rw [appendEvt_cruiseLbl, if_neg hne]

/-- Witness for `c10_addEvent_spec`: adding the unknown event "x" to the
station built from event "100" of `dbW` fails and leaves it unchanged. -/
theorem c10_addEvent_spec_witness :
    Station.addEvent dbW (Station.fromEvent dbW "100") "x" =
      (false, Station.fromEvent dbW "100") :=
  (c10_addEvent_spec dbW (Station.fromEvent dbW "100") "x").1 (Or.inr (Or.inl (by decide)))

/-! ## Station collation by proximity (src/common/Events.cpp:186-254,
    StationInfo from src/common/Stations.cpp:21-105) -/

/-- The fields of `StationInfo` (src/common/Stations.cpp:21-105) read by the
collator's proximity test: mean longitude, mean latitude and mean time. -/
structure StationInfoC where
  meanLon : ℚ
  meanLat : ℚ
  meanTime : ℚ

/-- Embeds the parts of `StationInfo::StationInfo(Station)`
(src/common/Stations.cpp:21-105) that the collator reads: `gds[i]` is
`meanOf(startGregorianDay, endGregorianDay)` of each event; the antimeridian
correction shifts every negative longitude by +360 when events with
longitude > 100 and events with longitude < -100 are both present (note the
C++ applies this shift to a missing-sentinel longitude as well, which the
embedding reproduces); the means are `RRandomVar` means over the missing
filter. -/
def stationInfoC (st : Station) : StationInfoC :=
  let gds := st.eventInfos.map (fun ei => meanOf ei.startGregorianDay ei.endGregorianDay)
  let posLonCount := (st.eventInfos.filter (fun ei => ei.longitude > 100)).length
  let negLonCount := (st.eventInfos.filter (fun ei => ei.longitude < -100)).length
  let lons0 := st.eventInfos.map (fun ei => ei.longitude)
  let lons := if posLonCount > 0 ∧ negLonCount > 0 then
      lons0.map (fun x => if x < 0 then x + 360 else x)
    else lons0
  let lats := st.eventInfos.map (fun ei => ei.latitude)
  { meanLon := RRandomVar.mean lons, meanLat := RRandomVar.mean lats,
    meanTime := RRandomVar.mean gds }

/-- A distance primitive with the signature of `distance(lon1,lat1,lon2,lat2)`
(src/common/globalFunctions.cpp:388-409). The collator treats it as a black
box, so the embedding is parameterised over it. -/
def DistFn : Type := ℚ → ℚ → ℚ → ℚ → ℚ

/-- Embeds `distance` (src/common/globalFunctions.cpp:388-409) on its
`dlon == 0.` branch, where the source returns `fabs(fac*dlat)` with
`fac = 111.194929`, exactly representable here. The other branch is the
stepped integration using double-precision `cos` and `sqrt`; it is not
representable in exact arithmetic and is modelled by a large constant. Every
concrete collation theorem below places all events at one longitude, so only
the first branch is ever evaluated there. -/
def distanceFlat (lon1 lat1 lon2 lat2 : ℚ) : ℚ :=
  if lon2 - lon1 = 0 then |(111194929 / 1000000 : ℚ) * (lat2 - lat1)| else 10 ^ 9

/-- Embeds the inner scan of the proximity pass of
`EventsDB::collateStationsByProximity` (src/common/Events.cpp:216-224): the
`for (i=n; i>=0; --i)` loop over the remaining event numbers. With counter
`k+1` the loop body runs for index `i = k`; a fold removes the entry at `i`
(`takeAt(i)`), which leaves all smaller indices untouched. The seed station's
info is recomputed from the current cluster each iteration. `selfDB` is the
`this` object (`eventInfoOf`), `paramDB` the separate `eventsDB` argument
passed to `addEvent`. -/
def proxScanAux (selfDB paramDB : EventsDB) (dist : DistFn) (dTol tTol : ℚ) :
    Nat → Station → List String → Station × List String
  | 0, st, evts => (st, evts)
  | k + 1, st, evts =>
    let si := stationInfoC st
    let evtNumber := evts.getD k ""
    let ei := dbEventInfoOf selfDB evtNumber
    let dTime := si.meanTime - meanOf ei.startGregorianDay ei.endGregorianDay
    let dDist := dist si.meanLon si.meanLat ei.longitude ei.latitude
    if |dTime| < tTol ∧ dDist < dTol then
      let r := Station.addEvent paramDB st evtNumber
      if r.1 then proxScanAux selfDB paramDB dist dTol tTol k r.2 (evts.eraseIdx k)
      else proxScanAux selfDB paramDB dist dTol tTol k r.2 evts
    else proxScanAux selfDB paramDB dist dTol tTol k st evts

/-- Embeds the `do { ... } while (!evtNumbers.isEmpty())` outer loop of the
proximity pass (src/common/Events.cpp:213-227): take the first remaining id
as seed (`Station(this, evtNumbers.takeFirst())`), scan the rest with the
index loop, append the cluster. The fuel is the initial id count; every
iteration consumes at least the seed, so it never runs out. -/
def proxLoop (selfDB paramDB : EventsDB) (dist : DistFn) (dTol tTol : ℚ) :
    Nat → List String → List Station → List Station
  | 0, _, acc => acc
  | fuel + 1, evts, acc =>
    match evts with
    | [] => acc
    | e :: rest =>
      let st0 := Station.fromEvent selfDB e
      let r := proxScanAux selfDB paramDB dist dTol tTol rest.length st0 rest
      let acc' := acc ++ [r.1]
      if r.2.isEmpty then acc' else proxLoop selfDB paramDB dist dTol tTol fuel r.2 acc'

/-- Embeds the inner `for (j=0; j<m; ++j)` loop of the merge pass
(src/common/Events.cpp:240-249): scan the labelled stations in forward
order; on the first one within both tolerances, replace it by
`stRef.addStation(st)` (`stLstByStLbl[j]=stRef`) and stop (`break`);
`none` when no labelled station matches. -/
def mergeScan (dist : DistFn) (tTol dTol : ℚ) (rTime rLon rLat : ℚ) (st : Station) :
    List Station → Option (List Station)
  | [] => none
  | stRef :: rest =>
    let si := stationInfoC stRef
    let dTime := si.meanTime - rTime
    let dDist := dist si.meanLon si.meanLat rLon rLat
    if |dTime| < tTol ∧ dDist < dTol then some (stRef.addStation st :: rest)
    else (mergeScan dist tTol dTol rTime rLon rLat st rest).map (stRef :: ·)

/-- Embeds the outer `for (i=n; i>=0; --i)` loop of the merge pass
(src/common/Events.cpp:236-250): with counter `k+1` the body runs for cluster
index `i = k`; on a match the cluster is removed (`stations.takeAt(i)`). -/
def mergeAux (dist : DistFn) (tTol dTol : ℚ) :
    Nat → List Station → List Station → List Station × List Station
  | 0, stations, stLst => (stations, stLst)
  | k + 1, stations, stLst =>
    let st := stations.getD k Station.emptySt
    let si := stationInfoC st
    match mergeScan dist tTol dTol si.meanTime si.meanLon si.meanLat st stLst with
    | some stLst1 => mergeAux dist tTol dTol k (stations.eraseIdx k) stLst1
    | none => mergeAux dist tTol dTol k stations stLst

/-- Embeds `EventsDB::collateStationsByProximity`
(src/common/Events.cpp:186-254): empty result for no ids; otherwise the
proximity pass, followed by the merge pass when the labelled list is
non-empty. Returns the standalone-station list (the C++ return value) and
the updated labelled list (the C++ by-reference `stLstByStLbl`). -/
def collateStationsByProximity (selfDB paramDB : EventsDB) (dist : DistFn)
    (evtNumbers : List String) (distanceTolerance timeTolerance : ℚ)
    (stLstByStLbl : List Station) : List Station × List Station :=
  if evtNumbers = [] then ([], stLstByStLbl)
  else
    let stations := proxLoop selfDB paramDB dist distanceTolerance timeTolerance
      evtNumbers.length evtNumbers []
    if stLstByStLbl.length > 0 then
      mergeAux dist timeTolerance distanceTolerance stations.length stations stLstByStLbl
    else (stations, stLstByStLbl)

/-- One growth test of the amended claims C4/C5: test id `e` against the
current cluster `st` exactly as one body run of the source's scan loop does
(tolerance conditions against the cluster's current mean time and centroid,
then `Station::addEvent`); return the new cluster and `kept` with `e`
prepended when `e` was not folded. -/
def scanStep (selfDB paramDB : EventsDB) (dist : DistFn) (dTol tTol : ℚ)
    (st : Station) (e : String) (kept : List String) : Station × List String :=
  let si := stationInfoC st
  let ei := dbEventInfoOf selfDB e
  let dTime := si.meanTime - meanOf ei.startGregorianDay ei.endGregorianDay
  let dDist := dist si.meanLon si.meanLat ei.longitude ei.latitude
  if |dTime| < tTol ∧ dDist < dTol then
    let r := Station.addEvent paramDB st e
    if r.1 then (r.2, kept) else (r.2, e :: kept)
  else (st, e :: kept)

/-- Modelled from the amended claim C5: one cluster-growth scan written as a
structural right-to-left recursion — the remaining ids are visited from the
last towards the first, each tested against the cluster's current mean time
and centroid, and folded exactly when both tolerance conditions hold and the
event can be appended to the cluster's Station (`Station::addEvent`
succeeds). The second component is the list of ids that remain. -/
def specScanRev (selfDB paramDB : EventsDB) (dist : DistFn) (dTol tTol : ℚ) :
    Station → List String → Station × List String
  | st, [] => (st, [])
  | st, e :: rest =>
    let r0 := specScanRev selfDB paramDB dist dTol tTol st rest
    scanStep selfDB paramDB dist dTol tTol r0.1 e r0.2

/-- Modelled from the amended claim C5: the whole proximity pass — repeatedly
seed a new cluster from the first remaining id, run one right-to-left growth
scan over the other remaining ids, and continue with the ids that were not
folded until none remain. -/
def specProxLoop (selfDB paramDB : EventsDB) (dist : DistFn) (dTol tTol : ℚ) :
    Nat → List String → List Station → List Station
  | 0, _, acc => acc
  | fuel + 1, evts, acc =>
    match evts with
    | [] => acc
    | e :: rest =>
      let st0 := Station.fromEvent selfDB e
      let r := specScanRev selfDB paramDB dist dTol tTol st0 rest
      let acc' := acc ++ [r.1]
      if r.2.isEmpty then acc'
      else specProxLoop selfDB paramDB dist dTol tTol fuel r.2 acc'

/-- One merge test of the amended claim C4: test cluster `st` against the
labelled stations in forward order (`mergeScan`); on the first match the
cluster is dropped (first component empty) and the labelled list updated,
otherwise the cluster is kept. -/
def mergeStep (dist : DistFn) (tTol dTol : ℚ) (st : Station) (stLst : List Station) :
    List Station × List Station :=
  let si := stationInfoC st
  match mergeScan dist tTol dTol si.meanTime si.meanLon si.meanLat st stLst with
  | some stLst1 => ([], stLst1)
  | none => ([st], stLst)

/-- Modelled from the amended claim C4: the merge pass written as a
structural right-to-left recursion over the proximity clusters (reverse
creation order); each cluster is tested against the labelled stations in
forward order, and on the first match it is removed from the standalone list
while the matched labelled station absorbs its events only when the cruise
labels agree (`Station::addStation`). -/
def specMergeRev (dist : DistFn) (tTol dTol : ℚ) :
    List Station → List Station → List Station × List Station
  | [], stLst => ([], stLst)
  | st :: rest, stLst =>
    let r0 := specMergeRev dist tTol dTol rest stLst
    let m := mergeStep dist tTol dTol st r0.2
    (m.1 ++ r0.1, m.2)

/-- Modelled from the amended claims C4/C5: the whole collation by proximity,
built from the right-to-left pass and merge recursions. -/
def specCollateByProximity (selfDB paramDB : EventsDB) (dist : DistFn)
    (evtNumbers : List String) (distanceTolerance timeTolerance : ℚ)
    (stLstByStLbl : List Station) : List Station × List Station :=
  if evtNumbers = [] then ([], stLstByStLbl)
  else
    let stations := specProxLoop selfDB paramDB dist distanceTolerance timeTolerance
      evtNumbers.length evtNumbers []
    if stLstByStLbl.length > 0 then
      specMergeRev dist timeTolerance distanceTolerance stations stLstByStLbl
    else (stations, stLstByStLbl)

/-- Modelled from the spec: the growth scan exactly as the original claim C5
words it — the remaining ids visited in original input order (first to
last). Used only to exhibit the counterexample; the code scans in the
opposite order. -/
def claimScanFwdC5 (selfDB paramDB : EventsDB) (dist : DistFn) (dTol tTol : ℚ) :
    Station → List String → Station × List String
  | st, [] => (st, [])
  | st, e :: rest =>
    let s := scanStep selfDB paramDB dist dTol tTol st e []
    let r1 := claimScanFwdC5 selfDB paramDB dist dTol tTol s.1 rest
    (r1.1, s.2 ++ r1.2)

/-- Modelled from the spec: the proximity pass as the original claim C5 words
it, with the forward growth scan. -/
def claimProxLoopFwdC5 (selfDB paramDB : EventsDB) (dist : DistFn) (dTol tTol : ℚ) :
    Nat → List String → List Station → List Station
  | 0, _, acc => acc
  | fuel + 1, evts, acc =>
    match evts with
    | [] => acc
    | e :: rest =>
      let st0 := Station.fromEvent selfDB e
      let r := claimScanFwdC5 selfDB paramDB dist dTol tTol st0 rest
      let acc' := acc ++ [r.1]
      if r.2.isEmpty then acc'
      else claimProxLoopFwdC5 selfDB paramDB dist dTol tTol fuel r.2 acc'


/-! ### Equivalence of the index-loop embeddings with the right-to-left
    recursions (claims C4 and C5) -/

/-- Entries beyond the scanned range ride along untouched: scanning the first
`k` indices of `xs ++ ys` is scanning `xs` with `ys` appended to the
remainder. -/
theorem proxScanAux_append (S P : EventsDB) (d : DistFn) (dT tT : ℚ) :
    ∀ (k : Nat) (xs : List String) (st : Station), k ≤ xs.length → ∀ ys,
      proxScanAux S P d dT tT k st (xs ++ ys) =
        ((proxScanAux S P d dT tT k st xs).1,
         (proxScanAux S P d dT tT k st xs).2 ++ ys) := by
  intro k
  induction k with
  | zero => intro xs st h ys; rfl
  | succ k ih =>
    intro xs st h ys
    have hk : k < xs.length := h
    simp only [proxScanAux]
    rw [List.getD_append _ _ _ _ hk, List.eraseIdx_append_of_lt_length hk]
    split
    · split
      · rw [ih (xs.eraseIdx k) _ (by rw [List.length_eraseIdx_of_lt hk]; omega) ys]
      · rw [ih xs _ (le_of_lt hk) ys]
    · rw [ih xs _ (le_of_lt hk) ys]

/-- A suffix of already-kept ids rides along through one growth test. -/
theorem scanStep_append (S P : EventsDB) (d : DistFn) (dT tT : ℚ)
    (st : Station) (e : String) (kept ys : List String) :
    scanStep S P d dT tT st e (kept ++ ys) =
      ((scanStep S P d dT tT st e kept).1,
       (scanStep S P d dT tT st e kept).2 ++ ys) := by
  simp only [scanStep]
  split
  · split
    · rfl
    · simp
  · simp

/-- One right-to-left scan of `xs ++ [x]` first handles `x`, then scans `xs`
from the resulting cluster. -/
theorem specScanRev_append (S P : EventsDB) (d : DistFn) (dT tT : ℚ) :
    ∀ (xs : List String) (x : String) (st : Station),
      specScanRev S P d dT tT st (xs ++ [x]) =
        ((specScanRev S P d dT tT (scanStep S P d dT tT st x []).1 xs).1,
         (specScanRev S P d dT tT (scanStep S P d dT tT st x []).1 xs).2 ++
           (scanStep S P d dT tT st x []).2) := by
  intro xs
  induction xs with
  | nil => intro x st; simp [specScanRev]
  | cons e rest ih =>
    intro x st
    rw [List.cons_append]
    simp only [specScanRev]
    rw [ih x st]
    simp [scanStep_append]

/-- The source's downward index scan over a whole list is the right-to-left
structural scan of the amended claim. -/
theorem proxScanAux_eq_specScanRev (S P : EventsDB) (d : DistFn) (dT tT : ℚ) :
    ∀ (xs : List String) (st : Station),
      proxScanAux S P d dT tT xs.length st xs = specScanRev S P d dT tT st xs := by
  intro xs
  induction xs using List.reverseRecOn with
  | nil => intro st; rfl
  | append_singleton xs x ih =>
    intro st
    have hlen : (xs ++ [x]).length = xs.length + 1 := by simp
    rw [hlen, specScanRev_append]
    simp only [proxScanAux, specScanRev, scanStep]
    rw [List.getD_append_right _ _ _ _ (Nat.le_refl _), Nat.sub_self,
      List.eraseIdx_append_of_length_le (Nat.le_refl _), Nat.sub_self]
    simp only [List.getD_cons_zero, List.eraseIdx_cons_zero, List.append_nil]
    split
    · split
      · rw [ih]
        simp
      · rw [proxScanAux_append S P d dT tT xs.length xs _ (Nat.le_refl _) [x], ih]
    · rw [proxScanAux_append S P d dT tT xs.length xs _ (Nat.le_refl _) [x], ih]

/-- The outer do-while loops agree once the scans agree. -/
theorem proxLoop_eq_specProxLoop (S P : EventsDB) (d : DistFn) (dT tT : ℚ) :
    ∀ (fuel : Nat) (evts : List String) (acc : List Station),
      proxLoop S P d dT tT fuel evts acc = specProxLoop S P d dT tT fuel evts acc := by
  intro fuel
  induction fuel with
  | zero => intro evts acc; rfl
  | succ fuel ih =>
    intro evts acc
    cases evts with
    | nil => rfl
    | cons e rest =>
      simp only [proxLoop, specProxLoop]
      rw [proxScanAux_eq_specScanRev]
      split
      · rfl
      · rw [ih]

/-- Clusters beyond the merge counter ride along untouched. -/
theorem mergeAux_append (d : DistFn) (tT dT : ℚ) :
    ∀ (k : Nat) (xs : List Station), k ≤ xs.length → ∀ (ys L : List Station),
      mergeAux d tT dT k (xs ++ ys) L =
        ((mergeAux d tT dT k xs L).1 ++ ys, (mergeAux d tT dT k xs L).2) := by
  intro k
  induction k with
  | zero => intro xs h ys L; rfl
  | succ k ih =>
    intro xs h ys L
    have hk : k < xs.length := h
    simp only [mergeAux]
    rw [List.getD_append _ _ _ _ hk, List.eraseIdx_append_of_lt_length hk]
    split
    · rw [ih (xs.eraseIdx k) (by rw [List.length_eraseIdx_of_lt hk]; omega) ys]
    · rw [ih xs (le_of_lt hk) ys]

/-- One right-to-left merge of `xs ++ [x]` first handles cluster `x`, then
merges `xs` against the updated labelled list. -/
theorem specMergeRev_append (d : DistFn) (tT dT : ℚ) :
    ∀ (xs : List Station) (x : Station) (L : List Station),
      specMergeRev d tT dT (xs ++ [x]) L =
        ((specMergeRev d tT dT xs (mergeStep d tT dT x L).2).1 ++
            (mergeStep d tT dT x L).1,
         (specMergeRev d tT dT xs (mergeStep d tT dT x L).2).2) := by
  intro xs
  induction xs with
  | nil => intro x L; simp [specMergeRev]
  | cons e rest ih =>
    intro x L
    rw [List.cons_append]
    simp only [specMergeRev]
    rw [ih x L]
    simp [List.append_assoc]

/-- The source's downward index merge over a whole cluster list is the
right-to-left structural merge of the amended claim. -/
theorem mergeAux_eq_specMergeRev (d : DistFn) (tT dT : ℚ) :
    ∀ (xs : List Station) (L : List Station),
      mergeAux d tT dT xs.length xs L = specMergeRev d tT dT xs L := by
  intro xs
  induction xs using List.reverseRecOn with
  | nil => intro L; rfl
  | append_singleton xs x ih =>
    intro L
    have hlen : (xs ++ [x]).length = xs.length + 1 := by simp
    rw [hlen, specMergeRev_append]
    simp only [mergeAux, mergeStep]
    rw [List.getD_append_right _ _ _ _ (Nat.le_refl _), Nat.sub_self,
      List.eraseIdx_append_of_length_le (Nat.le_refl _), Nat.sub_self]
    simp only [List.getD_cons_zero, List.eraseIdx_cons_zero, List.append_nil]
    split
    · rw [ih]
      simp
    · rw [mergeAux_append d tT dT xs.length xs (Nat.le_refl _) [x], ih]

/-- Modelled from the amended claim C5: the proximity pass on its own (no
labelled stations to merge into). -/
def specProximityPass (selfDB paramDB : EventsDB) (dist : DistFn)
    (evtNumbers : List String) (dTol tTol : ℚ) : List Station :=
  if evtNumbers = [] then []
  else specProxLoop selfDB paramDB dist dTol tTol evtNumbers.length evtNumbers []

/-- Concrete events database for the C5 counterexample: three events of one
cruise at one position with times 0, 3/2 and 5/2 days. -/
def dbC5 : EventsDB := fun k =>
  if k = "1" then some (mkEvent 1 "GC" "" 0 0 0)
  else if k = "2" then some (mkEvent 2 "GC" "" (3 / 2) 0 0)
  else if k = "3" then some (mkEvent 3 "GC" "" (5 / 2) 0 0)
  else none

/-- Claim C5 (counterexample): with time tolerance 2 days, distance tolerance
1 km and input order `["1","2","3"]` (times 0, 3/2, 5/2 at one position),
the code's scan visits the remaining ids in reverse input order: it tests
"3" against the seed "1" first (time gap 5/2, too far) and then folds "2",
producing the clusters `{1,2}` and `{3}`. The claim's forward scan would fold
"2" first (gap 3/2), move the cluster mean to 3/4, and then also fold "3"
(gap 7/4), producing the single cluster `{1,2,3}`. -/
theorem c5_counterexample :
    (collateStationsByProximity dbC5 dbC5 distanceFlat ["1", "2", "3"] 1 2 []).1 ≠
      claimProxLoopFwdC5 dbC5 dbC5 distanceFlat 1 2 3 ["1", "2", "3"] [] := by
  norm_num +decide [abs_lt, collateStationsByProximity, proxLoop, proxScanAux, stationInfoC,
    RRandomVar.mean, meanOf, missDOUBLE, distanceFlat, dbC5, mkEvent,
    Station.fromEvent, Station.addEvent, Station.withCruiseOfFirst,
    Station.appendEvt, Station.addStationLabel, Station.containsEvt,
    Station.isEmptySt, dbContains, dbEventInfoOf, Station.emptySt,
    claimProxLoopFwdC5, claimScanFwdC5, scanStep, EventInfo.defaultInfo,
    List.getD, List.eraseIdx]

/-- Claim C5 (amended): the proximity pass repeatedly takes the first
remaining id as a new cluster seed, scans all other remaining ids in
*reverse* input order (last towards first, not original order), folds an id
into the cluster exactly when |timeDifference| < timeTolerance AND
distance < distanceTolerance hold against the cluster's current mean time
and centroid AND the event can be appended to the cluster's Station
(known to the events DB, not already present, cruise label matching),
removes folded ids from the remaining set, and repeats until the remaining
set is empty. -/
theorem c5_proximity_pass_correct (S P : EventsDB) (d : DistFn)
    (evts : List String) (dT tT : ℚ) :
    collateStationsByProximity S P d evts dT tT [] =
      (specProximityPass S P d evts dT tT, []) := by
  unfold collateStationsByProximity specProximityPass
  split
  · rfl
  · rw [proxLoop_eq_specProxLoop]
    rfl

/-- Concrete events database for the C4 counterexample: a labelled event of
cruise "A" and an unlabelled event of cruise "B" at the same position and
time. -/
def dbC4 : EventsDB := fun k =>
  if k = "10" then some (mkEvent 10 "A" "S1" 0 0 0)
  else if k = "20" then some (mkEvent 20 "B" "" 0 0 0)
  else none

/-- Claim C4 (counterexample): the unlabelled cluster `{20}` (cruise "B") is
within both tolerances of the labelled station `{10}` (cruise "A"), so the
merge pass removes it from the standalone list — but `Station::addStation`
refuses the differing cruise label and appends nothing, so event "20"
appears in no output station at all: the claim's "all of the cluster's
events are appended ... (no event of the cluster is lost)" fails. -/
theorem c4_counterexample :
    (collateStationsByProximity dbC4 dbC4 distanceFlat ["20"] 1 1
        [Station.fromEvent dbC4 "10"]) =
      ([], [Station.fromEvent dbC4 "10"]) ∧
    (((collateStationsByProximity dbC4 dbC4 distanceFlat ["20"] 1 1
        [Station.fromEvent dbC4 "10"]).1 ++
      (collateStationsByProximity dbC4 dbC4 distanceFlat ["20"] 1 1
        [Station.fromEvent dbC4 "10"]).2).all
      (fun s => !(s.evtNumbers.contains "20"))) = true := by
  norm_num +decide [abs_lt, collateStationsByProximity, proxLoop, proxScanAux, mergeAux,
    mergeScan, stationInfoC, RRandomVar.mean, meanOf, missDOUBLE, distanceFlat,
    dbC4, mkEvent, Station.fromEvent, Station.addEvent, Station.addStation,
    Station.withCruiseOfFirst, Station.appendEvt, Station.addStationLabel,
    Station.containsEvt, Station.isEmptySt, dbContains, dbEventInfoOf,
    Station.emptySt, EventInfo.defaultInfo, List.getD, List.eraseIdx]

/-- Claim C4 (amended): in the merge pass, every proximity cluster is tested
in reverse creation order against the labelled Stations in forward order; on
the first labelled Station whose mean time and centroid are within both
tolerances of the cluster's, the cluster is removed from the standalone
list, and its events are appended to that labelled Station exactly when the
cluster's cruise label equals the labelled Station's (`Station::addStation`);
a cluster matched across different cruises is removed without its events
being transferred, and clusters matching no labelled Station remain as
standalone Stations. -/
theorem c4_merge_pass_correct (S P : EventsDB) (d : DistFn)
    (evts : List String) (dT tT : ℚ) (L : List Station) :
    collateStationsByProximity S P d evts dT tT L =
      specCollateByProximity S P d evts dT tT L := by
  unfold collateStationsByProximity specCollateByProximity
  split
  · rfl
  · rw [proxLoop_eq_specProxLoop]
    split
    · rw [mergeAux_eq_specMergeRev]
    · rfl

/-! ## Per-event data aggregation and reconciliation
    (src/common/EventData.cpp, claims C1 and C9) -/

/-- Splitting a character list at every (non-overlapping, left-to-right)
occurrence of the two-character separator `"::"`, as `QString::split("::")`
does. (Lean's own `String.splitOn` is not kernel-reducible, so the split is
embedded directly on the character list.) -/
def splitCC : List Char → List (List Char)
  | [] => [[]]
  | ':' :: ':' :: rest => [] :: splitCC rest
  | c :: rest =>
    match splitCC rest with
    | [] => [[c]]
    | h :: t => (c :: h) :: t

/-- Embeds `Param::paramNameFromExtendedName` (src/common/Params.cpp:269-287):
split the extended name on `"::"`; the parameter name is part 0 and the
barcode part 1. (An extended name without `"::"` would make the C++
`sl.at(1)` crash; the embedding returns an empty barcode.) -/
def paramNameFromExtendedName (ext : String) : String × String :=
  let sl := splitCC ext.toList
  (String.mk (sl.getD 0 []), String.mk (sl.getD 1 []))

/-- The state of one `EventData` object (src/common/EventData.h) as far as
`getValues` reads it: the contributor registries built by the constructor
(`extPrmNamesByUPrmName`, `dataIdsByUPrmName`, kept in lockstep per unified
name), the three value arenas indexed by data id and sample index, the
quantity-identity resolver (`hasUnifiedPrms() ? Param::unifiedNameLabel :
identity`, an external collaborator), and the station's cruise label used
for info-file names. -/
structure EventDataS where
  extPrmNamesByUPrmName : String → List String
  dataIdsByUPrmName : String → List Int
  dblData : Int → Nat → ℚ
  errData : Int → Nat → ℚ
  qfData : Int → Nat → Char
  uOf : String → String
  cruiseLbl : String

/-- Embeds `EventData::paramNamesForUPrmName` (src/common/EventData.cpp:160-184)
with the two parallel result lists fused into one list of
(parameter name, barcode) pairs. -/
def paramNamesForUPrmName (S : EventDataS) (u : String) : List (String × String) :=
  (S.extPrmNamesByUPrmName u).map paramNameFromExtendedName

/-- Embeds `EventData::dataIdFromExtendedName`
(src/common/EventData.cpp:187-207): resolve the unified name of the extended
name's parameter part, look the extended name up in that unified name's
registry, and return the data id at the found position (`-1` when absent;
the C++ `at(idx)` on the parallel `dataIds` list is in range whenever the
registries are in lockstep). -/
def dataIdFromExtendedName (S : EventDataS) (ext : String) : Int :=
  let pb := paramNameFromExtendedName ext
  let u := S.uOf pb.1
  match (S.extPrmNamesByUPrmName u).findIdx? (· = ext) with
  | some idx => (S.dataIdsByUPrmName u).getD idx (-1)
  | none => -1

/-- Embeds `EventData::infoFileName` (src/common/EventData.cpp:287-301):
`cruiseLbl + "_" + prmName + "_"` followed by the decimal contributor
indices. -/
def infoFileName (S : EventDataS) (prmName : String) (idxList : List Nat) : String :=
  S.cruiseLbl ++ "_" ++ prmName ++ "_" ++ String.join (idxList.map toString)

/-- Result of one `getValues` call: the reconciled value/error/flag, the
assigned info string, and the list of info files written during the call
(`writeInfoFile` invocations). -/
structure GetValuesResult where
  val : ℚ
  err : ℚ
  qf : Char
  infoStr : String
  writes : List String
deriving DecidableEq

/-- Embeds the collection loop of `EventData::getValues`
(src/common/EventData.cpp:248-262); `getValues` below embeds the rest of the
function (src/common/EventData.cpp:224-284).
The loop over the contributors collects, for every contributor index whose
stored value is non-missing, the index and the stored value/error/flag
triple (the C++ keeps four parallel containers `contribIdxs`, `vals`,
`errs`, `qfs`). With no collected value the initialisations
(`val=err=missDOUBLE`, `qf='9'`, empty info string) survive; one collected
value passes through; several produce the `RRandomVar` median, a missing
error and the combined flag. The C++ `infoFiles` cache is a variable local
to `getValues` (src/common/EventData.cpp:246), so it is empty at every
`contains` check and the info file is written on every call that collects
at least one value; the embedding reproduces that literally. The info-file
name uses the loop variable `prmName` as left by the collection loop: the
*last* contributor's parameter name. -/
def collectContribs (S : EventDataS) (uPrmName : String) (smplIdx : Nat) :
    List (Nat × ℚ × ℚ × Char) :=
  let pairs := paramNamesForUPrmName S uPrmName
  (List.range pairs.length).filterMap (fun i =>
    let pb := pairs.getD i ("", "")
    let dataId := dataIdFromExtendedName S (pb.1 ++ "::" ++ pb.2)
    let lVal := S.dblData dataId smplIdx
    if lVal ≠ missDOUBLE then
      some (i, lVal, S.errData dataId smplIdx, S.qfData dataId smplIdx)
    else none)

/-- The rest of `EventData::getValues` (src/common/EventData.cpp:224-284)
after the collection loop, built on `collectContribs` above. -/
def getValues (S : EventDataS) (uPrmName : String) (smplIdx : Nat) : GetValuesResult :=
  let pairs := paramNamesForUPrmName S uPrmName
  let contribCount := pairs.length
  if contribCount = 0 then ⟨missDOUBLE, missDOUBLE, '9', "", []⟩
  else
    let collected := collectContribs S uPrmName smplIdx
    let valueCount := collected.length
    let vals := collected.map (fun c => c.2.1)
    let errs := collected.map (fun c => c.2.2.1)
    let qfs := collected.map (fun c => c.2.2.2)
    let contribIdxs := collected.map (fun c => c.1)
    let vq : ℚ × ℚ × Char :=
      if valueCount = 1 then (vals.getD 0 0, errs.getD 0 0, qfs.getD 0 '0')
      else if valueCount > 1 then
        (RRandomVar.median vals missDOUBLE, missDOUBLE, combinedSdnQualityFlag qfs)
      else (missDOUBLE, missDOUBLE, '9')
    if valueCount > 0 then
      let prmNameLast := (pairs.getD (contribCount - 1) ("", "")).1
      let infoFn := infoFileName S prmNameLast contribIdxs
      let infoFiles : List String := []
      if infoFiles.contains infoFn then
        ⟨vq.1, vq.2.1, vq.2.2, "lf:infos/" ++ infoFn ++ ".html", []⟩
      else
        ⟨vq.1, vq.2.1, vq.2.2, "lf:infos/" ++ infoFn ++ ".html", [infoFn]⟩
    else ⟨vq.1, vq.2.1, vq.2.2, "", []⟩

/-- The raw contributions stored for one (unified parameter, sample index)
pair: the value/error/flag triples at the registered data ids, in registry
order. -/
def contributionsFor (S : EventDataS) (u : String) (k : Nat) : List (ℚ × ℚ × Char) :=
  (S.dataIdsByUPrmName u).map (fun id => (S.dblData id k, S.errData id k, S.qfData id k))

/-- Modelled from the spec (claim C1, amended): collect the Contributions
with non-missing stored value; for zero collected return missing value,
missing error and flag `'9'`; for exactly one pass it through unchanged; for
more than one return the median of the collected values, the missing
sentinel as error, and the combined quality flag of all collected flags. -/
def specReconcile (contribs : List (ℚ × ℚ × Char)) : ℚ × ℚ × Char :=
  let collected := contribs.filter (fun c => c.1 ≠ missDOUBLE)
  match collected with
  | [] => (missDOUBLE, missDOUBLE, '9')
  | [c] => c
  | _ => (RRandomVar.median (collected.map (fun c => c.1)) missDOUBLE, missDOUBLE,
          combinedSdnQualityFlag (collected.map (fun c => c.2.2)))

/-- In a duplicate-free list, searching for the `i`-th element finds
position `i`. -/
theorem findIdxP_eq_of_nodup (l : List String) (hnd : l.Nodup) :
    ∀ (i : Nat) (hi : i < l.length),
      l.findIdx? (fun s => s = l.get ⟨i, hi⟩) = some i := by
  induction l with
  | nil => intro i hi; simp at hi
  | cons a t ih =>
    intro i hi
    obtain ⟨hna, hndt⟩ := List.nodup_cons.mp hnd
    cases i with
    | zero => simp [List.findIdx?_cons]
    | succ j =>
      have hj : j < t.length := by simpa using hi
      have hget : (a :: t).get ⟨j + 1, hi⟩ = t.get ⟨j, hj⟩ := rfl
      have hne : ¬(a = t.get ⟨j, hj⟩) := by
        intro h
        exact hna (h ▸ List.get_mem t j hj)
      rw [List.findIdx?_cons, hget]
      simp only [hne, decide_False, if_false]
      rw [List.findIdx?_succ, ih hndt j hj]
      rfl

/-- Under the registry well-formedness used by claim C1 (round-tripping
extended names through the resolver, duplicate-free registry), the
reconstruction `prmName + "::" + barcode` of the `i`-th contributor resolves
back to the `i`-th registered data id. -/
theorem dataId_roundtrip (S : EventDataS) (u : String)
    (hround : ∀ ext ∈ S.extPrmNamesByUPrmName u,
      (paramNameFromExtendedName ext).1 ++ "::" ++ (paramNameFromExtendedName ext).2 = ext ∧
      S.uOf (paramNameFromExtendedName ext).1 = u)
    (hnd : (S.extPrmNamesByUPrmName u).Nodup)
    (i : Nat) (hi : i < (S.extPrmNamesByUPrmName u).length) :
    dataIdFromExtendedName S
        (((paramNamesForUPrmName S u).getD i ("", "")).1 ++ "::" ++
          ((paramNamesForUPrmName S u).getD i ("", "")).2)
      = (S.dataIdsByUPrmName u).getD i (-1) := by
  have hpair : (paramNamesForUPrmName S u).getD i ("", "") =
      paramNameFromExtendedName ((S.extPrmNamesByUPrmName u).get ⟨i, hi⟩) := by
    have hi3 : i < (List.map paramNameFromExtendedName
        (S.extPrmNamesByUPrmName u)).length := by
      simpa using hi
    unfold paramNamesForUPrmName
    rw [List.getD_eq_getElem _ _ hi3]
    simp
  obtain ⟨hjoin, hu⟩ := hround _ (List.get_mem (S.extPrmNamesByUPrmName u) i hi)
  rw [hpair, hjoin]
  simp only [dataIdFromExtendedName]
  rw [hu, findIdxP_eq_of_nodup _ hnd i hi]

/-- Projecting the index away, collecting over `range L.length` by reading
`L` positionally is filtering and mapping `L` itself. The tag function `idx`
absorbs the index shift in the induction. -/
theorem range_filterMap_proj {γ : Type} (q : Int → Prop) [DecidablePred q]
    (dval : Int → γ) :
    ∀ (L : List Int) (idx : Nat → Nat),
      (((List.range L.length).filterMap (fun i =>
          if q (L.getD i (-1)) then some (idx i, dval (L.getD i (-1))) else none)).map
        (fun p => p.2))
        = (L.filter (fun id => decide (q id))).map dval := by
  intro L
  induction L with
  | nil => intro idx; rfl
  | cons a t ih =>
    intro idx
    rw [List.length_cons, List.range_succ_eq_map, List.filterMap_cons,
      List.filterMap_map]
    simp only [Function.comp_def, Nat.succ_eq_add_one, List.getD_cons_zero,
      List.getD_cons_succ]
    by_cases hq : q a
    · rw [if_pos hq]
      simp only [List.map_cons, List.filter_cons, decide_eq_true hq, if_true]
      rw [ih (fun j => idx (j + 1))]
    · rw [if_neg hq]
      have hqf : (decide (q a)) = false := decide_eq_false hq
      simp only [List.filter_cons, hqf, Bool.false_eq_true, if_false]
      rw [ih (fun j => idx (j + 1))]

/-- The collection loop of `getValues`, stripped of the contributor indices,
reads exactly the non-missing contributions of the unified parameter. -/
theorem collectContribs_spec (S : EventDataS) (u : String) (k : Nat)
    (hround : ∀ ext ∈ S.extPrmNamesByUPrmName u,
      (paramNameFromExtendedName ext).1 ++ "::" ++ (paramNameFromExtendedName ext).2 = ext ∧
      S.uOf (paramNameFromExtendedName ext).1 = u)
    (hnd : (S.extPrmNamesByUPrmName u).Nodup)
    (hlen : (S.dataIdsByUPrmName u).length = (S.extPrmNamesByUPrmName u).length) :
    (collectContribs S u k).map (fun c => c.2) =
      (contributionsFor S u k).filter (fun c => c.1 ≠ missDOUBLE) := by
  unfold collectContribs
  have hcong := List.filterMap_congr (l := List.range (paramNamesForUPrmName S u).length)
    (f := fun i =>
      let pb := (paramNamesForUPrmName S u).getD i ("", "")
      let dataId := dataIdFromExtendedName S (pb.1 ++ "::" ++ pb.2)
      let lVal := S.dblData dataId k
      if lVal ≠ missDOUBLE then
        some (i, lVal, S.errData dataId k, S.qfData dataId k)
      else none)
    (g := fun i =>
      if S.dblData ((S.dataIdsByUPrmName u).getD i (-1)) k ≠ missDOUBLE then
        some (i, S.dblData ((S.dataIdsByUPrmName u).getD i (-1)) k,
          S.errData ((S.dataIdsByUPrmName u).getD i (-1)) k,
          S.qfData ((S.dataIdsByUPrmName u).getD i (-1)) k)
      else none)
    (by
      intro i hi
      have hi2 : i < (S.extPrmNamesByUPrmName u).length := by
        have := List.mem_range.mp hi
        simpa [paramNamesForUPrmName] using this
      simp only [dataId_roundtrip S u hround hnd i hi2])
  rw [hcong]
  have hrange : (paramNamesForUPrmName S u).length = (S.dataIdsByUPrmName u).length := by
    simp [paramNamesForUPrmName, hlen]
  rw [hrange]
  rw [range_filterMap_proj (fun id => S.dblData id k ≠ missDOUBLE)
    (fun id => (S.dblData id k, S.errData id k, S.qfData id k))
    (S.dataIdsByUPrmName u) (fun i => i)]
  unfold contributionsFor
  rw [List.filter_map]
  rfl

/-- On vocabulary inputs the combined flag is `'9'` exactly when every input
flag is `'9'`. -/
theorem combinedFlag_eq_nine_iff (l : List Char) (hl : ∀ c ∈ l, c ∈ sdnQFlags) :
    combinedSdnQualityFlag l = '9' ↔ ∀ c ∈ l, c = '9' := by
  rw [combinedFlag_eq_spec l hl]
  unfold specCombinedFlag
  by_cases hfe : l.filter (· ≠ '9') = []
  · have hall : ∀ c ∈ l, c = '9' := by
      intro c hc
      by_contra hne
      have hcf : c ∈ l.filter (· ≠ '9') := List.mem_filter.mpr ⟨hc, by simpa using hne⟩
      rw [hfe] at hcf
      exact absurd hcf (List.not_mem_nil c)
    rw [if_pos hfe]
    exact ⟨fun _ => hall, fun _ => rfl⟩
  · have hmem : ((l.filter (· ≠ '9')).map codeSeverity).foldl max '0' ∈ odvQFlags := by
      refine foldl_max_mem_odv _ '0' (by decide) ?_
      intro c hc
      rcases List.mem_map.mp hc with ⟨x, hx, rfl⟩
      exact codeSeverity_mem x (hl x (List.mem_of_mem_filter hx))
    have hne9 : claimBackMapC2 (((l.filter (· ≠ '9')).map codeSeverity).foldl max '0') ≠ '9' := by
      simp only [odvQFlags, List.mem_cons, List.mem_singleton,
        List.not_mem_nil, or_false] at hmem
      rcases hmem with h | h | h | h <;> rw [h] <;> decide
    rw [if_neg hfe]
    constructor
    · intro h
      exact absurd h hne9
    · intro hall
      exact absurd (List.filter_eq_nil_iff.mpr (by
        intro a ha
        simp [hall a ha])) hfe

/-- The reconciled value/error/flag of `getValues` is the dispatch over the
collected contribution count, independently of the info-file branches. -/
theorem getValues_vq (S : EventDataS) (u : String) (k : Nat)
    (h0 : ¬((paramNamesForUPrmName S u).length = 0)) :
    ((getValues S u k).val, (getValues S u k).err, (getValues S u k).qf) =
      (if (collectContribs S u k).length = 1 then
        (((collectContribs S u k).map (fun c => c.2.1)).getD 0 0,
         ((collectContribs S u k).map (fun c => c.2.2.1)).getD 0 0,
         ((collectContribs S u k).map (fun c => c.2.2.2)).getD 0 '0')
      else if (collectContribs S u k).length > 1 then
        (RRandomVar.median ((collectContribs S u k).map (fun c => c.2.1)) missDOUBLE,
         missDOUBLE,
         combinedSdnQualityFlag ((collectContribs S u k).map (fun c => c.2.2.2)))
      else (missDOUBLE, missDOUBLE, '9')) := by
  simp only [getValues]
  rw [if_neg h0]
  split
  · split
    · simp
    · simp
  · simp

/-- Claim C1 (amended): for every (sample, QuantityIdentity) pair,
`getValues` collects exactly the Contributions whose raw identity maps to
that QuantityIdentity (round-tripping registry, lockstep data-id list) and
whose stored value is non-missing, and returns: for zero collected, missing
value, missing error and flag `'9'`; for exactly one, that Contribution's
value, error and flag unchanged; for more than one, the median of the
collected values, the missing sentinel as error, and the combined quality
flag. For one or more collected Contributions the returned flag is `'9'`
only when every collected Contribution's flag is `'9'` (the original claim
said the flag is never `'9'` then, but a `'9'`-flagged non-missing stored
value passes through). -/
theorem c1_getValues_correct (S : EventDataS) (u : String) (k : Nat)
    (hround : ∀ ext ∈ S.extPrmNamesByUPrmName u,
      (paramNameFromExtendedName ext).1 ++ "::" ++ (paramNameFromExtendedName ext).2 = ext ∧
      S.uOf (paramNameFromExtendedName ext).1 = u)
    (hnd : (S.extPrmNamesByUPrmName u).Nodup)
    (hlen : (S.dataIdsByUPrmName u).length = (S.extPrmNamesByUPrmName u).length)
    (hvocab : ∀ c ∈ (contributionsFor S u k).map (fun c => c.2.2), c ∈ sdnQFlags) :
    ((getValues S u k).val, (getValues S u k).err, (getValues S u k).qf) =
      specReconcile (contributionsFor S u k) ∧
    ((getValues S u k).qf = '9' →
      ∀ c ∈ (contributionsFor S u k).filter (fun c => c.1 ≠ missDOUBLE), c.2.2 = '9') := by
  have hcoll := collectContribs_spec S u k hround hnd hlen
  by_cases h0 : (paramNamesForUPrmName S u).length = 0
  · have hext : (S.extPrmNamesByUPrmName u).length = 0 := by
      simpa [paramNamesForUPrmName] using h0
    have hdata : S.dataIdsByUPrmName u = [] :=
      List.length_eq_zero.mp (by rw [hlen, hext])
    have hcontrib : contributionsFor S u k = [] := by simp [contributionsFor, hdata]
    have hgv : getValues S u k = ⟨missDOUBLE, missDOUBLE, '9', "", []⟩ := by
      simp only [getValues]
      rw [if_pos h0]
    rw [hgv, hcontrib]
    exact ⟨rfl, by intro _ c hc; simp at hc⟩
  · have hvq := getValues_vq S u k h0
    have hlen2 : (collectContribs S u k).length =
        ((contributionsFor S u k).filter (fun c => c.1 ≠ missDOUBLE)).length := by
      rw [← hcoll, List.length_map]
    have hvals : (collectContribs S u k).map (fun c => c.2.1) =
        ((contributionsFor S u k).filter (fun c => c.1 ≠ missDOUBLE)).map (fun c => c.1) := by
      rw [← hcoll, List.map_map]
      rfl
    have herrs : (collectContribs S u k).map (fun c => c.2.2.1) =
        ((contributionsFor S u k).filter (fun c => c.1 ≠ missDOUBLE)).map (fun c => c.2.1) := by
      rw [← hcoll, List.map_map]
      rfl
    have hqfs : (collectContribs S u k).map (fun c => c.2.2.2) =
        ((contributionsFor S u k).filter (fun c => c.1 ≠ missDOUBLE)).map (fun c => c.2.2) := by
      rw [← hcoll, List.map_map]
      rfl
    rcases hF : (contributionsFor S u k).filter (fun c => c.1 ≠ missDOUBLE) with _ | ⟨c, tail⟩
    · rw [hF] at hlen2
      simp only [List.length_nil] at hlen2
      rw [hlen2, if_neg (by omega : ¬(0 = 1)), if_neg (by omega : ¬(0 > 1))] at hvq
      constructor
      · refine hvq.trans ?_
        unfold specReconcile
        rw [hF]
      · intro _ x hx
        rw [hF] at hx
        exact absurd hx (List.not_mem_nil x)
    · rcases tail with _ | ⟨c2, tail2⟩
      · rw [hF] at hlen2 hvals herrs hqfs
        simp only [List.length_singleton] at hlen2
        rw [hlen2, if_pos rfl, hvals, herrs, hqfs] at hvq
        simp only [List.map_singleton, List.getD_cons_zero] at hvq
        constructor
        · refine hvq.trans ?_
          unfold specReconcile
          rw [hF]
        · intro h9 x hx
          have hq9 : (getValues S u k).qf = c.2.2 := congrArg (fun p => p.2.2) hvq
          rw [hq9] at h9
          rw [hF] at hx
          rw [List.mem_singleton.mp hx]
          exact h9
      · rw [hF] at hlen2 hvals herrs hqfs
        simp only [List.length_cons] at hlen2
        rw [hlen2, if_neg (by omega : ¬(tail2.length + 1 + 1 = 1)),
          if_pos (by omega : tail2.length + 1 + 1 > 1), hvals, hqfs] at hvq
        constructor
        · refine hvq.trans ?_
          unfold specReconcile
          rw [hF]
        · intro h9 x hx
          have hq9 : (getValues S u k).qf =
              combinedSdnQualityFlag ((c :: c2 :: tail2).map (fun c => c.2.2)) :=
            congrArg (fun p => p.2.2) hvq
          rw [hq9] at h9
          have hvocab2 : ∀ ch ∈ (c :: c2 :: tail2).map (fun c => c.2.2), ch ∈ sdnQFlags := by
            intro ch hch
            rcases List.mem_map.mp hch with ⟨y, hy, rfl⟩
            refine hvocab _ (List.mem_map.mpr ⟨y, ?_, rfl⟩)
            exact List.mem_of_mem_filter (hF ▸ hy)
          have hall := (combinedFlag_eq_nine_iff _ hvocab2).mp h9
          rw [hF] at hx
          exact hall _ (List.mem_map.mpr ⟨x, hx, rfl⟩)

/-- A concrete `EventData` state: one unified name `"U"` with a single
registered contributor `"P::b"` at data id 7, whose stored values are all
non-missing (value 1, error 0) and whose quality flag is `'9'`. -/
def edS1 : EventDataS where
  extPrmNamesByUPrmName := fun u => if u = "U" then ["P::b"] else []
  dataIdsByUPrmName := fun u => if u = "U" then [7] else []
  dblData := fun _ _ => 1
  errData := fun _ _ => 0
  qfData := fun _ _ => '9'
  uOf := fun _ => "U"
  cruiseLbl := "CR"

/-- Claim C1, counterexample to the final clause as written: with exactly
one collected Contribution (so k = 1 ≥ 1) whose quality flag is `'9'`,
`getValues` passes the flag through and returns `'9'` — the claim says the
returned flag is never `'9'` when one or more Contributions are collected. -/
theorem c1_counterexample :
    ((contributionsFor edS1 "U" 0).filter (fun c => c.1 ≠ missDOUBLE)).length = 1 ∧
    (getValues edS1 "U" 0).qf = '9' := by
  constructor
  · norm_num +decide [contributionsFor, edS1, missDOUBLE]
  · norm_num +decide [getValues, collectContribs, contributionsFor,
      paramNamesForUPrmName, paramNameFromExtendedName, splitCC,
      dataIdFromExtendedName, infoFileName, edS1, missDOUBLE, List.range_succ]

/-- Witness for `c1_getValues_correct`: the hypotheses hold at the concrete
state `edS1`, unified name `"U"`, sample 0, and the theorem applies there. -/
theorem c1_getValues_correct_witness :
    ((∀ ext ∈ edS1.extPrmNamesByUPrmName "U",
        (paramNameFromExtendedName ext).1 ++ "::" ++ (paramNameFromExtendedName ext).2 = ext ∧
        edS1.uOf (paramNameFromExtendedName ext).1 = "U") ∧
     (edS1.extPrmNamesByUPrmName "U").Nodup ∧
     (edS1.dataIdsByUPrmName "U").length = (edS1.extPrmNamesByUPrmName "U").length ∧
     (∀ c ∈ (contributionsFor edS1 "U" 0).map (fun c => c.2.2), c ∈ sdnQFlags)) ∧
    (((getValues edS1 "U" 0).val, (getValues edS1 "U" 0).err, (getValues edS1 "U" 0).qf) =
       specReconcile (contributionsFor edS1 "U" 0) ∧
     ((getValues edS1 "U" 0).qf = '9' →
       ∀ c ∈ (contributionsFor edS1 "U" 0).filter (fun c => c.1 ≠ missDOUBLE), c.2.2 = '9')) :=
  ⟨⟨by decide, by decide, by decide, by decide⟩,
   c1_getValues_correct edS1 "U" 0 (by decide) (by decide) (by decide) (by decide)⟩

/-- Claim C9: contrary to the claim, the info-file cache of
`EventData::getValues` (the `infoFiles` string list checked before each
`writeInfoFile` call) is a local variable of the function
(src/common/EventData.cpp:246) and is therefore empty on every call. Two
reconciliation calls with the same (QuantityIdentity, contributor-set)
composite key — state `edS1`, unified name `"U"`, contributor set hidden in
the identical info-file name — both write the info file: the second call
writes the very same file again instead of reusing a cached note. -/
theorem c9_infoFile_rewritten :
    (getValues edS1 "U" 0).writes = (getValues edS1 "U" 1).writes ∧
    (getValues edS1 "U" 0).writes ≠ [] := by
  constructor
  · norm_num +decide [getValues, collectContribs, paramNamesForUPrmName,
      paramNameFromExtendedName, splitCC, dataIdFromExtendedName, infoFileName,
      edS1, missDOUBLE, List.range_succ]
  · norm_num +decide [getValues, collectContribs, paramNamesForUPrmName,
      paramNameFromExtendedName, splitCC, dataIdFromExtendedName, infoFileName,
      edS1, missDOUBLE, List.range_succ]
